import Mathlib

/-!
Verification of the participant-enrollment core: the identifier allocator
(`eligible_id_assigner.py`), the REDCap client's error classifier
(`redcap_client.py`), and the resilient notification dispatcher with its
rate limiter and circuit breaker (`common/email_sender.py`).

Strings are manipulated at the `List Char` level with explicit helpers that
mirror the Python string operations used by the source (`.strip()`, `.lower()`,
`int(...)`, `in`, `.endswith(...)`), so that every definition evaluates by
kernel reduction.
-/

/-- ASCII whitespace recognised by Python `str.strip()` (space, tab, newline,
carriage return, vertical tab, form feed). -/
def isPySpace (c : Char) : Bool :=
  c = ' ' || c = '\t' || c = '\n' || c = '\r' || c = '\x0b' || c = '\x0c'

/-- Python `str.strip()`: drop leading and trailing whitespace. -/
def stripChars (cs : List Char) : List Char :=
  List.reverse (List.dropWhile isPySpace (List.reverse (List.dropWhile isPySpace cs)))

/-- ASCII lower-casing of one character, as Python `str.lower()` does on the
ASCII detection strings and addresses used by the source. -/
def lowerChar (c : Char) : Char :=
  if 'A' ≤ c ∧ c ≤ 'Z' then Char.ofNat (c.toNat + 32) else c

/-- Python `str.lower()` on an ASCII string. -/
def lowerStr (cs : List Char) : List Char :=
  cs.map lowerChar

/-- Python substring test `needle in hay`. -/
def containsSub (hay needle : List Char) : Bool :=
  decide (needle <:+: hay)

/-- Python `str.endswith(suffix)`. -/
def endsWithStr (s suff : List Char) : Bool :=
  decide (suff <:+ s)

def isDigitChar (c : Char) : Bool :=
  '0' ≤ c ∧ c ≤ '9'

def digitsVal (cs : List Char) : Nat :=
  cs.foldl (fun a c => 10 * a + (c.toNat - '0'.toNat)) 0

/-- Python `int(s)` on an already-stripped string: an optional sign followed by
at least one digit, otherwise a `ValueError` (`none`). Underscore digit
separators, accepted by CPython, are not modelled; no value written by the
allocator contains one. -/
def parseIntChars (cs : List Char) : Option Int :=
  match cs with
  | [] => none
  | '-' :: rest =>
      if rest ≠ [] ∧ rest.all isDigitChar then some (-(digitsVal rest : Int)) else none
  | '+' :: rest =>
      if rest ≠ [] ∧ rest.all isDigitChar then some ((digitsVal rest : Int)) else none
  | _ =>
      if cs.all isDigitChar then some ((digitsVal cs : Int)) else none

/-- A REDCap record as the allocator sees it: a field-name/value association
list. `getField` is Python's `record.get(field, '')`. -/
def RcRecord : Type := List (String × String)

def getField (r : RcRecord) (field : String) : String :=
  match List.lookup field r with
  | some v => v
  | none => ""

/-- The field holding the assigned study identifier ( `eligible_id_assigner.py` ). -/
def assignedField : String := "assigned_study_id_a690e9"

/-- A category range from `EligibleIDAssigner.ID_RANGES`. -/
structure IdRange where
  min : Int
  max : Int
deriving DecidableEq

/-- `ID_RANGES['healthy_control']` -/
def hcRange : IdRange := ⟨3000, 10199⟩

/-- `ID_RANGES['mdd_participant']` -/
def mddRange : IdRange := ⟨10200, 20000⟩

/-- The `ID_RANGES` dictionary of `EligibleIDAssigner.__init__`. -/
def ID_RANGES (group_type : String) : Option IdRange :=
  if group_type = "healthy_control" then some hcRange
  else if group_type = "mdd_participant" then some mddRange
  else none

/-- The id-collection loop of `EligibleIDAssigner.get_next_dynamic_id`
(lines 57-67): strip each record's assigned-id field, skip empty values,
skip values that fail `int(...)`, and keep only values inside the group's
range. -/
def existing_ids (id_range : IdRange) (records : List RcRecord) : List Int :=
  records.filterMap (fun record =>
    let idStr := stripChars (getField record assignedField).data
    if idStr = [] then none
    else
      match parseIntChars idStr with
      | none => none
      | some v =>
          if id_range.min ≤ v ∧ v ≤ id_range.max then some v else none)

/-- The `ValueError` raised by `get_next_dynamic_id` when the range limit is
reached (line 76). -/
inductive NextIdError where
  | rangeExhausted (maxId : Int)
deriving DecidableEq

/-- `EligibleIDAssigner.get_next_dynamic_id` (lines 44-82), given the fresh
export of records: if ids exist in the group's range, the candidate is
`max(existing_ids) + 1`, rejected when it exceeds the range maximum;
otherwise the candidate is the range minimum. -/
def get_next_dynamic_id (id_range : IdRange) (records : List RcRecord) :
    Except NextIdError Int :=
  match existing_ids id_range records with
  | [] => .ok id_range.min
  | x :: xs =>
      let next_id := xs.foldl max x + 1
      if next_id > id_range.max then .error (.rangeExhausted id_range.max)
      else .ok next_id

theorem le_foldl_max (xs : List Int) (a : Int) : a ≤ xs.foldl max a := by
  induction xs generalizing a with
  | nil => exact le_refl a
  | cons x xs ih => exact le_trans (le_max_left a x) (ih (max a x))

theorem foldl_max_le (xs : List Int) (a B : Int) (ha : a ≤ B)
    (h : ∀ y ∈ xs, y ≤ B) : xs.foldl max a ≤ B := by
  induction xs generalizing a with
  | nil => exact ha
  | cons x xs ih =>
      exact ih (max a x) (max_le ha (h x (List.mem_cons_self x xs)))
        (fun y hy => h y (List.mem_cons_of_mem x hy))

theorem mem_existing_ids_range (id_range : IdRange) (records : List RcRecord)
    (v : Int) (hv : v ∈ existing_ids id_range records) :
    id_range.min ≤ v ∧ v ≤ id_range.max := by
  rw [existing_ids, List.mem_filterMap] at hv
  obtain ⟨r, _, hr⟩ := hv
  dsimp only at hr
  split at hr
  · exact absurd hr (by simp)
  · split at hr
    · exact absurd hr (by simp)
    · split at hr
      · rename_i hcond
        obtain rfl : _ = v := Option.some.inj hr
        exact hcond
      · exact absurd hr (by simp)

theorem get_next_dynamic_id_range (id_range : IdRange) (records : List RcRecord)
    (hmm : id_range.min ≤ id_range.max) (v : Int)
    (hok : get_next_dynamic_id id_range records = .ok v) :
    id_range.min ≤ v ∧ v ≤ id_range.max := by
  rw [get_next_dynamic_id] at hok
  split at hok
  · obtain rfl : _ = v := Except.ok.inj hok
    exact ⟨le_refl _, hmm⟩
  · rename_i x xs hx
    dsimp only at hok
    split at hok
    · exact absurd hok (by simp)
    · rename_i hle
      obtain rfl : _ = v := Except.ok.inj hok
      push_neg at hle
      have hxmem : x ∈ existing_ids id_range records := by
        rw [hx]; exact List.mem_cons_self x xs
      have hxlo := (mem_existing_ids_range id_range records x hxmem).1
      constructor
      · have := le_foldl_max xs x
        omega
      · exact hle

/-!  The REDCap client's error type and transient-error classifier
(`redcap_client.py`, lines 14-29). -/

/-- Default of the `detection_strings` parameter of `RedcapApiError.__init__`. -/
def defaultDetectionStrings : List String :=
  ["unique constraint", "duplicate", "already exists"]

/-- `RedcapApiError` (`redcap_client.py` lines 14-19): message, optional HTTP
status code, optional response body, and the configurable detection
substrings. A `response_body` of `some ""` is distinct from `none` because
Python treats the empty string as falsy in the classifier. -/
structure RedcapApiError where
  message : String
  status_code : Option Int
  response_body : Option String
  detection_strings : List String
deriving DecidableEq

/-- `RedcapApiError(message, status_code, response_body, detection_strings)`:
the constructor replaces a `None` detection list by the defaults
(`detection_strings or [...]`, line 19). -/
def mkRedcapApiError (message : String) (status_code : Option Int)
    (response_body : Option String) (detection : Option (List String)) :
    RedcapApiError :=
  ⟨message, status_code, response_body, detection.getD defaultDetectionStrings⟩

/-- `RedcapApiError.is_unique_constraint_violation` (lines 21-29): true when the
status code is one of 400/409/422, the body is present and non-empty
(Python truthiness), and some detection substring occurs case-insensitively
in the body. -/
def RedcapApiError.is_unique_constraint_violation (e : RedcapApiError) : Bool :=
  match e.status_code with
  | some c =>
      if c = 400 ∨ c = 409 ∨ c = 422 then
        match e.response_body with
        | some body =>
            if body = "" then false
            else e.detection_strings.any
              (fun d => containsSub (lowerStr body.data) (lowerStr d.data))
        | none => false
      else false
  | none => false

/-!  Concurrent allocation model for the uniqueness claim.  Multiple
independent processes race `process_records`' read-compute-write loop against
the shared repository; the repository is external to this codebase and is
modelled through the write contract the spec gives it. -/

/-- Modelled from the spec: the external record repository's conditional write
(§6 `import(records, conditional)`), which is not part of this repository's
source. It accepts a new identifier value only if no record already holds it,
surfacing a uniqueness-constraint conflict otherwise. -/
def repoWrite (assigned : List Int) (v : Int) : Option (List Int) :=
  if v ∈ assigned then none else some (assigned ++ [v])

/-- One interleaved run of concurrent allocation attempts against one category:
every attempt computes its candidate with `get_next_dynamic_id` from the
record snapshot it read (possibly stale by the time it writes), and the write
succeeds only if the repository's uniqueness constraint accepts it, exactly as
in the retry loop of `process_records` (lines 207-263). -/
def runConcurrent (id_range : IdRange) :
    List (List RcRecord) → List Int → List Int
  | [], assigned => assigned
  | snap :: rest, assigned =>
      match get_next_dynamic_id id_range snap with
      | .error _ => runConcurrent id_range rest assigned
      | .ok v =>
          match repoWrite assigned v with
          | none => runConcurrent id_range rest assigned
          | some assigned' => runConcurrent id_range rest assigned'

/-!  The per-record assignment retry loop of
`EligibleIDAssigner.process_records` (lines 207-263). -/

/-- `MAX_RETRIES` (line 208). -/
def MAX_RETRIES : Nat := 3

/-- The collision backoff slept between retry attempts, `0.5 * (2 ** attempt)`
seconds (line 252). -/
def backoffDelay (attempt : Nat) : ℚ := 0.5 * 2 ^ attempt

/-- Outcome of one `import_records` call. -/
inductive WriteOutcome where
  | ok
  | err (e : RedcapApiError)

/-- Environment one record's retry loop runs against: the repository contents
each fresh read returns (`repoAt`), the outcome of the import that carries the
`id_assigned` flag (`writeFlagAt`), and the outcome of the fallback import
without the flag (`writeAt`), per attempt index. -/
structure AttemptEnv where
  repoAt : Nat → List RcRecord
  writeFlagAt : Nat → Int → WriteOutcome
  writeAt : Nat → Int → WriteOutcome

/-- The inner try/except of lines 227-233: the flag-bearing import is tried
first and any `RedcapApiError` from it falls back to the plain import, whose
error (if any) escapes to the outer handler. -/
def attemptWrite (env : AttemptEnv) (i : Nat) (v : Int) : WriteOutcome :=
  match env.writeFlagAt i v with
  | .ok => .ok
  | .err _ => env.writeAt i v

/-- How one record's assignment ended. -/
inductive AssignOutcome where
  | assigned (v : Int) (attempt : Nat)
  | fatalApi (e : RedcapApiError) (attempt : Nat)
  | rangeError (attempt : Nat)
  | retriesExhausted

/-- The `for attempt in range(MAX_RETRIES)` loop of lines 211-263, returning
the outcome together with the backoff sleeps performed between attempts: a
fresh `get_next_dynamic_id` read per attempt; `ValueError` (range exhausted)
breaks at once; a write failure classified as a uniqueness violation sleeps
`0.5 * 2 ** attempt` (when attempts remain) and retries; any other write
failure breaks as fatal. -/
def assignAttempts (id_range : IdRange) (env : AttemptEnv) :
    Nat → Nat → List ℚ → AssignOutcome × List ℚ
  | _, 0, sleeps => (.retriesExhausted, sleeps)
  | i, fuel + 1, sleeps =>
      match get_next_dynamic_id id_range (env.repoAt i) with
      | .error _ => (.rangeError i, sleeps)
      | .ok v =>
          match attemptWrite env i v with
          | .ok => (.assigned v i, sleeps)
          | .err e =>
              if e.is_unique_constraint_violation then
                assignAttempts id_range env (i + 1) fuel
                  (if i < MAX_RETRIES - 1 then sleeps ++ [backoffDelay i] else sleeps)
              else (.fatalApi e i, sleeps)

/-- The whole retry loop for one record. -/
def processRecordAssign (id_range : IdRange) (env : AttemptEnv) :
    AssignOutcome × List ℚ :=
  assignAttempts id_range env 0 MAX_RETRIES []

/-!  Rate limiter (`common/email_sender.py`, lines 75-100).  Timestamps are
modelled as integer seconds; nothing in the source depends on sub-second
resolution except through these comparisons. -/

/-- `RateLimiter.__init__`: capacity, window length, FIFO of call times. -/
structure RateLimiter where
  max_calls : Nat
  time_window : Int
  calls : List Int
deriving DecidableEq

/-- Result of `RateLimiter.acquire`: `True`, or the wait time in seconds. -/
inductive AcquireResult where
  | allowed
  | wait (t : Int)
deriving DecidableEq

/-- The eviction loop `while self.calls and self.calls[0] <= now - self.time_window`
(lines 90-91). -/
def evictOld (time_window now : Int) : List Int → List Int
  | [] => []
  | t :: ts => if t ≤ now - time_window then evictOld time_window now ts else t :: ts

/-- `RateLimiter.acquire` (lines 84-100): evict expired timestamps; below
capacity the call is recorded and allowed, otherwise nothing is recorded and
the caller is told how long until the oldest timestamp expires. The empty-FIFO
wait branch is unreachable when `max_calls ≥ 1` (the source would index an
empty deque there). -/
def acquire (rl : RateLimiter) (now : Int) : RateLimiter × AcquireResult :=
  let calls := evictOld rl.time_window now rl.calls
  if calls.length < rl.max_calls then
    ({ rl with calls := calls ++ [now] }, .allowed)
  else
    match calls with
    | [] => ({ rl with calls := calls }, .wait 0)
    | t0 :: rest => ({ rl with calls := t0 :: rest }, .wait (t0 + rl.time_window - now))

/-!  Circuit breaker (`common/email_sender.py`, lines 105-151). -/

/-- `CircuitState` (lines 105-108). -/
inductive CircuitState where
  | Closed
  | Open
  | HalfOpen
deriving DecidableEq

/-- `CircuitBreaker` fields (lines 114-121). -/
structure CircuitBreaker where
  failure_threshold : Nat
  recovery_timeout : Int
  success_threshold : Nat
  failure_count : Nat
  success_count : Nat
  last_failure_time : Option Int
  state : CircuitState
deriving DecidableEq

/-- `CircuitBreaker()` with the default thresholds (5 failures, 60 s recovery,
2 successes). -/
def CircuitBreaker.init : CircuitBreaker :=
  ⟨5, 60, 2, 0, 0, none, .Closed⟩

/-- `CircuitBreaker.record_success` (lines 123-129). -/
def record_success (cb : CircuitBreaker) : CircuitBreaker :=
  let sc := cb.success_count + 1
  { cb with
    failure_count := 0
    success_count := sc
    state :=
      if cb.state = CircuitState.HalfOpen ∧ sc ≥ cb.success_threshold then
        CircuitState.Closed
      else cb.state }

/-- `CircuitBreaker.record_failure` (lines 131-138); `now` is `time.time()`. -/
def record_failure (cb : CircuitBreaker) (now : Int) : CircuitBreaker :=
  let fc := cb.failure_count + 1
  { cb with
    failure_count := fc
    success_count := 0
    last_failure_time := some now
    state := if fc ≥ cb.failure_threshold then CircuitState.Open else cb.state }

/-- `CircuitBreaker.can_attempt` (lines 140-151), returning the mutated breaker
together with the answer. The `t ≠ 0` conjunct mirrors the Python truthiness
test `if self.last_failure_time and ...` on a float timestamp. -/
def can_attempt (cb : CircuitBreaker) (now : Int) : CircuitBreaker × Bool :=
  match cb.state with
  | .Closed => (cb, true)
  | .Open =>
      match cb.last_failure_time with
      | some t =>
          if t ≠ 0 ∧ now - t > cb.recovery_timeout then
            ({ cb with state := CircuitState.HalfOpen }, true)
          else (cb, false)
      | none => (cb, false)
  | .HalfOpen => (cb, true)

/-- A sequence of `can_attempt` calls at the given times, threading the breaker
state. -/
def canAttemptMany (cb : CircuitBreaker) : List Int → CircuitBreaker × List Bool
  | [] => (cb, [])
  | u :: us =>
      let p := can_attempt cb u
      let q := canAttemptMany p.1 us
      (q.1, p.2 :: q.2)

/-!  Multi-provider dispatcher (`common/email_sender.py`, lines 654-783). -/

/-- The uniform result dict a provider's `send_email` returns: `success`,
optional `error` detail, the `retry` flag, and optional `status_code`. -/
structure SendResult where
  success : Bool
  error : Option String
  retry : Bool
  status_code : Option Int
deriving DecidableEq

/-- One configured provider as the dispatcher sees it: its
`get_provider_name()`, its `is_healthy()` answer, and the result its
`send_email` returns on the dispatcher's i-th attempt against it. -/
structure ProviderSpec where
  name : String
  healthy : Bool
  sendResults : Nat → SendResult

/-- One entry of the `attempts` audit list (lines 728-732): provider name,
1-based attempt number, and the provider's result. -/
structure DeliveryAttempt where
  provider : String
  attempt : Nat
  result : SendResult
deriving DecidableEq

/-- The dict `_send_with_providers` returns. On the success path the source
dict carries no `last_error`-derived key, hence `none` there. -/
structure DispatchOutcome where
  success : Bool
  provider : Option String
  attempts : List DeliveryAttempt
  last_error : Option String

/-- `is_stanford_recipient` (line 694): the lower-cased address ends with
`@stanford.edu`. -/
def is_stanford_recipient (to_email : String) : Bool :=
  endsWithStr (lowerStr to_email.data) "@stanford.edu".data

/-- Sort key of line 700 (Stanford recipients): SendGrid, then Stanford SMTP,
then everything else. -/
def sendgridFirstKeyStanford (name : String) : Nat :=
  if name = "sendgrid" then 0 else if name = "stanford_smtp" then 1 else 2

/-- Sort key of line 705 (external recipients): SendGrid, then other SMTP,
then Stanford SMTP. -/
def sendgridFirstKeyExternal (name : String) : Nat :=
  if name = "sendgrid" then 0 else if name = "stanford_smtp" then 2 else 1

/-- Python's `sorted` is stable, so sorting by a key with values in {0, 1, 2}
is the concatenation of the three key buckets in their original order. -/
def sortSpecsByKey (key : String → Nat) (ps : List ProviderSpec) : List ProviderSpec :=
  ps.filter (fun p => key p.name == 0) ++ ps.filter (fun p => key p.name == 1)
    ++ ps.filter (fun p => key p.name == 2)

/-- The recipient-sensitive provider ordering of lines 694-706. -/
def provider_order (ps : List ProviderSpec) (to_email : String) : List ProviderSpec :=
  if is_stanford_recipient to_email then sortSpecsByKey sendgridFirstKeyStanford ps
  else sortSpecsByKey sendgridFirstKeyExternal ps

/-- The transient test of line 750:
`result.get('retry', False) or result.get('status_code') in [429, 500, 502, 503, 504]`. -/
def isTransientStatus (sc : Option Int) : Bool :=
  sc = some 429 ∨ sc = some 500 ∨ sc = some 502 ∨ sc = some 503 ∨ sc = some 504

/-- The per-provider retry loop `for attempt in range(self.max_retries)`
(lines 723-772): append each attempt to the audit list; return on success;
on failure remember the error detail, retry when transient, break when
permanent. Returns (success?, audit list, last error). -/
def attemptLoop (p : ProviderSpec) :
    Nat → Nat → List DeliveryAttempt → Option String →
    Bool × List DeliveryAttempt × Option String
  | _, 0, attempts, lastErr => (false, attempts, lastErr)
  | i, fuel + 1, attempts, lastErr =>
      let r := p.sendResults i
      let attempts' := attempts ++ [⟨p.name, i + 1, r⟩]
      if r.success then (true, attempts', lastErr)
      else
        let lastErr' := some (r.error.getD "Unknown error")
        if r.retry || isTransientStatus r.status_code then
          attemptLoop p (i + 1) fuel attempts' lastErr'
        else (false, attempts', lastErr')

/-- Pointwise update of the per-provider breaker table. -/
def updateBreaker (bk : String → CircuitBreaker) (name : String)
    (cb : CircuitBreaker) : String → CircuitBreaker :=
  fun n => if n = name then cb else bk n

/-- The provider loop of `_send_with_providers` (lines 708-783) over an
already-ordered provider list: skip a provider whose breaker refuses or whose
health check fails; on a provider's success record it on the breaker and
return immediately; after a provider's retries are exhausted record the
failure on its breaker and move on; when every provider is exhausted return
the failure outcome carrying the audit trail and the last error. -/
def sendWithProviders (now : Int) (max_retries : Nat) :
    List ProviderSpec → (String → CircuitBreaker) → List DeliveryAttempt →
    Option String → DispatchOutcome × (String → CircuitBreaker)
  | [], bk, attempts, lastErr =>
      ({ success := false
         provider := none
         attempts := attempts
         last_error := some ("All providers failed. Last error: " ++ lastErr.getD "None") },
       bk)
  | p :: rest, bk, attempts, lastErr =>
      let ca := can_attempt (bk p.name) now
      let bk1 := updateBreaker bk p.name ca.1
      if ca.2 = false then sendWithProviders now max_retries rest bk1 attempts lastErr
      else if p.healthy = false then sendWithProviders now max_retries rest bk1 attempts lastErr
      else
        match attemptLoop p 0 max_retries attempts lastErr with
        | (true, attempts', _) =>
            ({ success := true
               provider := some p.name
               attempts := attempts'
               last_error := none },
             updateBreaker bk1 p.name (record_success (bk1 p.name)))
        | (false, attempts', lastErr') =>
            sendWithProviders now max_retries rest
              (updateBreaker bk1 p.name (record_failure (bk1 p.name) now))
              attempts' lastErr'

/-- `_send_with_providers` itself: order the providers for the recipient, then
run the provider loop with an empty audit trail. -/
def send_with_providers (now : Int) (max_retries : Nat) (providers : List ProviderSpec)
    (to_email : String) (bk : String → CircuitBreaker) :
    DispatchOutcome × (String → CircuitBreaker) :=
  sendWithProviders now max_retries (provider_order providers to_email) bk [] none

/-!  The batch entry point and the repository client's transport errors
(`eligible_id_assigner.py` lines 122-137, `redcap_client.py` lines 57-76). -/

/-- What the HTTP layer under `REDCapClient._make_request` produced. -/
inductive HttpAttempt where
  | response (status : Nat) (body : String)
  | networkError (msg : String)

/-- `REDCapClient._make_request` (lines 57-76): a response with status ≥ 400
becomes a `RedcapApiError` carrying status, body and the configured detection
strings; a non-HTTP network failure becomes a `RedcapApiError` with neither
status nor body. Either error is raised to the client's caller. -/
def make_request (detection : List String) (r : HttpAttempt) :
    Except RedcapApiError (Nat × String) :=
  match r with
  | .response status body =>
      if status ≥ 400 then
        .error ⟨"REDCap API Error: HTTP " ++ toString status, some (status : Int),
                some body, detection⟩
      else .ok (status, body)
  | .networkError msg =>
      .error (mkRedcapApiError ("Network or Request Error: " ++ msg) none none none)

/-- How a call of `process_records` ends for its caller: a normal return value
or a propagated exception. -/
inductive ProcReturn where
  | returned (n : Nat)
  | raised (e : RedcapApiError)
deriving DecidableEq

/-- The fetch phase of `EligibleIDAssigner.process_records` (lines 122-137):
the export's result is either a record batch, handed to the rest of the loop
(abstracted as `processBody`), or a `RedcapApiError`, which the `except`
clause logs and converts into a normal return of 0. -/
def process_records (fetchResult : Except RedcapApiError (List RcRecord))
    (processBody : List RcRecord → Nat) : ProcReturn :=
  match fetchResult with
  | .error _ => .returned 0
  | .ok recs => .returned (processBody recs)

/-!  Claims about the identifier allocator. -/

/-- Scenario A's repository contents: `{3000, 3001, 3005}` already assigned. -/
def scenarioARecords : List RcRecord :=
  [[(assignedField, "3000")], [(assignedField, "3001")], [(assignedField, "3005")]]

/-- A repository in which the healthy-control range is already at its maximum. -/
def exhaustedRecords : List RcRecord :=
  [[(assignedField, "10199")]]

/-- C1: over any interleaving of concurrent allocation attempts against one
category, each computing its candidate from its own (possibly stale) snapshot
and writing through the repository's uniqueness constraint, the identifiers
that are successfully assigned are pairwise distinct, new, and all lie within
the category's configured `[min, max]` range. -/
theorem claim_C1 (id_range : IdRange) (hmm : id_range.min ≤ id_range.max)
    (snaps : List (List RcRecord)) (init : List Int) :
    ∃ newIds, runConcurrent id_range snaps init = init ++ newIds ∧
      newIds.Nodup ∧
      ∀ v ∈ newIds, v ∉ init ∧ id_range.min ≤ v ∧ v ≤ id_range.max := by
  induction snaps generalizing init with
  | nil =>
      exact ⟨[], by simp [runConcurrent], List.nodup_nil, by simp⟩
  | cons snap rest ih =>
      rw [runConcurrent]
      cases hn : get_next_dynamic_id id_range snap with
      | error e => exact ih init
      | ok v =>
          simp only [repoWrite]
          by_cases hv : v ∈ init
          · rw [if_pos hv]
            exact ih init
          · rw [if_neg hv]
            obtain ⟨new', hrun, hnd, hprop⟩ := ih (init ++ [v])
            refine ⟨v :: new', ?_, ?_, ?_⟩
            · show runConcurrent id_range rest (init ++ [v]) = init ++ v :: new'
              rw [hrun, List.append_assoc]
              rfl
            · refine List.nodup_cons.2 ⟨?_, hnd⟩
              intro hvmem
              have := (hprop v hvmem).1
              exact this (List.mem_append_right init (List.mem_singleton.2 rfl))
            · intro w hw
              rcases List.mem_cons.1 hw with rfl | hw'
              · exact ⟨hv, get_next_dynamic_id_range id_range snap hmm w hn⟩
              · obtain ⟨hnotin, hlo, hhi⟩ := hprop w hw'
                exact ⟨fun hmem => hnotin (List.mem_append_left _ hmem), hlo, hhi⟩

/-- C1 witness: two further allocation rounds on the Scenario A repository,
starting from `{3000, 3001, 3005}` already assigned. -/
theorem claim_C1_witness :
    hcRange.min ≤ hcRange.max ∧
    ∃ newIds,
      runConcurrent hcRange [scenarioARecords, scenarioARecords] [3000, 3001, 3005]
        = [3000, 3001, 3005] ++ newIds ∧
      newIds.Nodup ∧
      ∀ v ∈ newIds, v ∉ [(3000 : Int), 3001, 3005] ∧ hcRange.min ≤ v ∧ v ≤ hcRange.max :=
  ⟨by decide,
   claim_C1 hcRange (by decide) [scenarioARecords, scenarioARecords] [3000, 3001, 3005]⟩

/-- C2 counterexample: with `{10199}` assigned, the healthy-control range has
at least one existing identifier, yet `get_next_dynamic_id` does not return
`max(existing) + 1 = 10200`: it raises the range-exhausted error instead. -/
theorem claim_C2_counterexample :
    existing_ids hcRange exhaustedRecords = [10199] ∧
    get_next_dynamic_id hcRange exhaustedRecords
      = .error (.rangeExhausted 10199) ∧
    ¬ get_next_dynamic_id hcRange exhaustedRecords = .ok (10199 + 1) := by
  refine ⟨rfl, rfl, ?_⟩
  intro h
  rw [show get_next_dynamic_id hcRange exhaustedRecords
        = Except.error (NextIdError.rangeExhausted 10199) from rfl] at h
  exact Except.noConfusion h

/-- C2 (amended): `get_next_dynamic_id` filters the assigned identifiers to
those parseable as integers inside the category's `[min, max]` range; it
returns `max(existing) + 1` when at least one such identifier exists and
`max(existing) < range.max` (when `max(existing) = range.max` it raises the
range-exhausted error instead of returning a value), and `range.min` when none
exists; in particular on Scenario A (HC range with `{3000, 3001, 3005}`
assigned) it returns 3006. -/
theorem claim_C2_amended (id_range : IdRange) (records : List RcRecord) :
    (∀ v ∈ existing_ids id_range records, id_range.min ≤ v ∧ v ≤ id_range.max) ∧
    (existing_ids id_range records = [] →
      get_next_dynamic_id id_range records = .ok id_range.min) ∧
    (∀ x xs, existing_ids id_range records = x :: xs →
      xs.foldl max x < id_range.max →
      get_next_dynamic_id id_range records = .ok (xs.foldl max x + 1)) ∧
    get_next_dynamic_id hcRange scenarioARecords = .ok 3006 := by
  refine ⟨fun v hv => mem_existing_ids_range id_range records v hv, ?_, ?_, rfl⟩
  · intro h
    simp only [get_next_dynamic_id, h]
  · intro x xs h hlt
    simp only [get_next_dynamic_id, h]
    rw [if_neg (by omega)]

/-- C2 witness: the amended theorem applied at the Scenario A repository
(non-empty case) and at the empty repository (empty case). -/
theorem claim_C2_witness :
    get_next_dynamic_id hcRange scenarioARecords
      = .ok (List.foldl max 3000 [3001, 3005] + 1) ∧
    get_next_dynamic_id hcRange ([] : List RcRecord) = .ok hcRange.min :=
  ⟨(claim_C2_amended hcRange scenarioARecords).2.2.1 3000 [3001, 3005] rfl (by decide),
   (claim_C2_amended hcRange []).2.1 rfl⟩

/-- One unfolding step of the retry loop. -/
theorem assignAttempts_succ (id_range : IdRange) (env : AttemptEnv)
    (i fuel : Nat) (sleeps : List ℚ) :
    assignAttempts id_range env i (fuel + 1) sleeps =
      match get_next_dynamic_id id_range (env.repoAt i) with
      | .error _ => (.rangeError i, sleeps)
      | .ok v =>
          match attemptWrite env i v with
          | .ok => (.assigned v i, sleeps)
          | .err e =>
              if e.is_unique_constraint_violation then
                assignAttempts id_range env (i + 1) fuel
                  (if i < MAX_RETRIES - 1 then sleeps ++ [backoffDelay i] else sleeps)
              else (.fatalApi e i, sleeps) := rfl

/-- A successful pass through the retry loop took its value from the fresh
read of the attempt on which it succeeded, within the available attempts. -/
theorem assignAttempts_assigned (id_range : IdRange) (env : AttemptEnv) :
    ∀ fuel i sleeps v j s',
      assignAttempts id_range env i fuel sleeps = (.assigned v j, s') →
      get_next_dynamic_id id_range (env.repoAt j) = .ok v ∧ j < i + fuel := by
  intro fuel
  induction fuel with
  | zero =>
      intro i sleeps v j s' h
      simp [assignAttempts] at h
  | succ fuel ih =>
      intro i sleeps v j s' h
      rw [assignAttempts_succ] at h
      cases hn : get_next_dynamic_id id_range (env.repoAt i) with
      | error e => rw [hn] at h; simp at h
      | ok w =>
          rw [hn] at h
          dsimp only at h
          cases hw : attemptWrite env i w with
          | ok =>
              rw [hw] at h
              dsimp only at h
              have h1 : AssignOutcome.assigned w i = AssignOutcome.assigned v j :=
                congrArg Prod.fst h
              injection h1 with hwv hij
              subst hwv
              subst hij
              exact ⟨hn, by omega⟩
          | err e =>
              rw [hw] at h
              dsimp only at h
              by_cases hv : e.is_unique_constraint_violation = true
              · rw [if_pos hv] at h
                obtain ⟨hok, hlt⟩ := ih (i + 1) _ v j s' h
                exact ⟨hok, by omega⟩
              · rw [if_neg hv] at h
                simp at h

/-- C3: a write failure classified as a remote uniqueness-constraint violation
makes the loop recompute the candidate from a fresh repository read and retry
the same record, up to `MAX_RETRIES = 3` total attempts with a sleep of
`0.5 * 2 ** attempt` seconds between consecutive attempts; a write failure not
classified as a uniqueness violation ends the record's processing at once and
is not retried. -/
theorem claim_C3 (id_range : IdRange) (env : AttemptEnv) :
    ((∀ i, i < MAX_RETRIES →
        ∃ v e, get_next_dynamic_id id_range (env.repoAt i) = .ok v ∧
          attemptWrite env i v = .err e ∧ e.is_unique_constraint_violation = true) →
      processRecordAssign id_range env
        = (.retriesExhausted, [backoffDelay 0, backoffDelay 1])) ∧
    (∀ v i sleeps, processRecordAssign id_range env = (.assigned v i, sleeps) →
      get_next_dynamic_id id_range (env.repoAt i) = .ok v ∧ i < MAX_RETRIES) ∧
    (∀ v e, get_next_dynamic_id id_range (env.repoAt 0) = .ok v →
      attemptWrite env 0 v = .err e → e.is_unique_constraint_violation = false →
      processRecordAssign id_range env = (.fatalApi e 0, [])) := by
  refine ⟨?_, ?_, ?_⟩
  · intro hall
    obtain ⟨v0, e0, hn0, hw0, hv0⟩ := hall 0 (by decide)
    obtain ⟨v1, e1, hn1, hw1, hv1⟩ := hall 1 (by decide)
    obtain ⟨v2, e2, hn2, hw2, hv2⟩ := hall 2 (by decide)
    show assignAttempts id_range env 0 (2 + 1) []
      = (.retriesExhausted, [backoffDelay 0, backoffDelay 1])
    rw [assignAttempts_succ, hn0]
    dsimp only
    rw [hw0]
    dsimp only
    rw [if_pos hv0, if_pos (by decide : (0 : Nat) < MAX_RETRIES - 1)]
    show assignAttempts id_range env 1 (1 + 1) [backoffDelay 0]
      = (.retriesExhausted, [backoffDelay 0, backoffDelay 1])
    rw [assignAttempts_succ, hn1]
    dsimp only
    rw [hw1]
    dsimp only
    rw [if_pos hv1, if_pos (by decide : (1 : Nat) < MAX_RETRIES - 1)]
    show assignAttempts id_range env 2 (0 + 1) [backoffDelay 0, backoffDelay 1]
      = (.retriesExhausted, [backoffDelay 0, backoffDelay 1])
    rw [assignAttempts_succ, hn2]
    dsimp only
    rw [hw2]
    dsimp only
    rw [if_pos hv2, if_neg (by decide : ¬ (2 : Nat) < MAX_RETRIES - 1)]
    rfl
  · intro v i sleeps h
    have h' : assignAttempts id_range env 0 MAX_RETRIES [] = (.assigned v i, sleeps) := h
    have := assignAttempts_assigned id_range env MAX_RETRIES 0 [] v i sleeps h'
    exact ⟨this.1, by omega⟩
  · intro v e hn hw hv
    show assignAttempts id_range env 0 (2 + 1) [] = (.fatalApi e 0, [])
    rw [assignAttempts_succ, hn]
    dsimp only
    rw [hw]
    dsimp only
    rw [if_neg (by simp [hv])]

/-- The write-collision error REDCap reports when another process already took
the candidate identifier. -/
def violationError : RedcapApiError :=
  mkRedcapApiError "REDCap API Error: HTTP 409" (some 409)
    (some "ERROR: duplicate key value violates unique constraint") none

/-- A permission-style write failure that is not a uniqueness violation. -/
def fatalError : RedcapApiError :=
  mkRedcapApiError "REDCap API Error: HTTP 403" (some 403) (some "Forbidden") none

/-- An environment in which every write attempt collides. -/
def collisionEnv : AttemptEnv :=
  ⟨fun _ => scenarioARecords, fun _ _ => .err violationError, fun _ _ => .err violationError⟩

/-- An environment in which every write attempt fails fatally. -/
def fatalEnv : AttemptEnv :=
  ⟨fun _ => scenarioARecords, fun _ _ => .err fatalError, fun _ _ => .err fatalError⟩

/-- An environment in which the first write attempt succeeds. -/
def okEnv : AttemptEnv :=
  ⟨fun _ => scenarioARecords, fun _ _ => .ok, fun _ _ => .ok⟩

/-- C3 witness: three colliding attempts exhaust the retries with the two
backoff sleeps; a fatal error stops attempt 0 with no sleep; a successful
assignment took its value from that attempt's fresh read. -/
theorem claim_C3_witness :
    processRecordAssign hcRange collisionEnv
      = (.retriesExhausted, [backoffDelay 0, backoffDelay 1]) ∧
    processRecordAssign hcRange fatalEnv = (.fatalApi fatalError 0, []) ∧
    (get_next_dynamic_id hcRange (okEnv.repoAt 0) = .ok 3006 ∧ 0 < MAX_RETRIES) :=
  ⟨(claim_C3 hcRange collisionEnv).1
      (fun i _ => ⟨3006, violationError, rfl, rfl, rfl⟩),
   (claim_C3 hcRange fatalEnv).2.2 3006 fatalError rfl rfl rfl,
   (claim_C3 hcRange okEnv).2.1 3006 0 [] rfl⟩

/-- C4: a candidate that would exceed the range maximum makes
`get_next_dynamic_id` raise the range-exhausted error; the retry loop then
fails the record immediately on attempt 0, with no backoff sleep, without
consulting the write channel at all (the outcome is the same for any write
behaviour), and the loop never assigns a value below `range.min` or above
`range.max`. -/
theorem claim_C4 (id_range : IdRange) (hmm : id_range.min ≤ id_range.max)
    (env env' : AttemptEnv) :
    (∀ records x xs, existing_ids id_range records = x :: xs →
      id_range.max ≤ xs.foldl max x →
      get_next_dynamic_id id_range records = .error (.rangeExhausted id_range.max)) ∧
    (env.repoAt = env'.repoAt →
      ∀ e, get_next_dynamic_id id_range (env.repoAt 0) = .error e →
        processRecordAssign id_range env = (.rangeError 0, []) ∧
        processRecordAssign id_range env = processRecordAssign id_range env') ∧
    (∀ v i sleeps, processRecordAssign id_range env = (.assigned v i, sleeps) →
      id_range.min ≤ v ∧ v ≤ id_range.max) := by
  refine ⟨?_, ?_, ?_⟩
  · intro records x xs h hle
    simp only [get_next_dynamic_id, h]
    rw [if_pos (by omega)]
  · intro henv e he
    have hstep : processRecordAssign id_range env = (.rangeError 0, []) := by
      show assignAttempts id_range env 0 (2 + 1) [] = (.rangeError 0, [])
      rw [assignAttempts_succ, he]
    refine ⟨hstep, ?_⟩
    have he' : get_next_dynamic_id id_range (env'.repoAt 0) = .error e := by
      rw [← henv]; exact he
    have hstep' : processRecordAssign id_range env' = (.rangeError 0, []) := by
      show assignAttempts id_range env' 0 (2 + 1) [] = (.rangeError 0, [])
      rw [assignAttempts_succ, he']
    rw [hstep, hstep']
  · intro v i sleeps h
    have h' : assignAttempts id_range env 0 MAX_RETRIES [] = (.assigned v i, sleeps) := h
    have := assignAttempts_assigned id_range env MAX_RETRIES 0 [] v i sleeps h'
    exact get_next_dynamic_id_range id_range (env.repoAt i) hmm v this.1

/-- An environment reading the exhausted repository, whose writes would all
succeed if they were ever attempted. -/
def exhaustEnv : AttemptEnv :=
  ⟨fun _ => exhaustedRecords, fun _ _ => .ok, fun _ _ => .ok⟩

/-- The same reads as `exhaustEnv` but with writes that would all fail. -/
def exhaustEnvFail : AttemptEnv :=
  ⟨fun _ => exhaustedRecords, fun _ _ => .err fatalError, fun _ _ => .err fatalError⟩

/-- C4 witness: with the healthy-control range at `max = 10199`, allocation
raises range-exhausted on attempt 0 with no sleeps, identically whether the
write channel would succeed or fail; and a successful allocation (Scenario A)
lies inside `[3000, 10199]`. -/
theorem claim_C4_witness :
    (get_next_dynamic_id hcRange exhaustedRecords
      = .error (.rangeExhausted hcRange.max) ∧
     processRecordAssign hcRange exhaustEnv = (.rangeError 0, []) ∧
     processRecordAssign hcRange exhaustEnv = processRecordAssign hcRange exhaustEnvFail) ∧
    (hcRange.min ≤ 3006 ∧ 3006 ≤ hcRange.max) :=
  ⟨⟨(claim_C4 hcRange (by decide) exhaustEnv exhaustEnvFail).1
        exhaustedRecords 10199 [] rfl (by decide),
    (claim_C4 hcRange (by decide) exhaustEnv exhaustEnvFail).2.1 rfl
        (.rangeExhausted 10199) rfl⟩,
   (claim_C4 hcRange (by decide) okEnv okEnv).2.2 3006 0 [] rfl⟩

/-- C5: the classifier returns true exactly when the status code is one of
400/409/422 and the response body is present, non-empty, and contains
(case-insensitively) at least one of the configured detection substrings,
whose defaults are "unique constraint", "duplicate", "already exists"; any
other combination — including a missing body or a network error with no
status code — yields false. -/
theorem claim_C5 (e : RedcapApiError) :
    (e.is_unique_constraint_violation = true ↔
      ((e.status_code = some 400 ∨ e.status_code = some 409 ∨ e.status_code = some 422) ∧
       ∃ body, e.response_body = some body ∧ body ≠ "" ∧
         ∃ d ∈ e.detection_strings,
           containsSub (lowerStr body.data) (lowerStr d.data) = true)) ∧
    defaultDetectionStrings = ["unique constraint", "duplicate", "already exists"] := by
  refine ⟨?_, rfl⟩
  obtain ⟨m, sc, rb, ds⟩ := e
  cases sc with
  | none => simp [RedcapApiError.is_unique_constraint_violation]
  | some c =>
      cases rb with
      | none =>
          simp [RedcapApiError.is_unique_constraint_violation]
      | some body =>
          by_cases hb : body = ""
          · subst hb
            simp [RedcapApiError.is_unique_constraint_violation]
          · by_cases hc : c = 400 ∨ c = 409 ∨ c = 422
            · simp [RedcapApiError.is_unique_constraint_violation, hc, hb,
                List.any_eq_true]
            · simp [RedcapApiError.is_unique_constraint_violation, hc, hb]

/-- One unfolding step of a `can_attempt` call sequence. -/
theorem canAttemptMany_cons (cb : CircuitBreaker) (u : Int) (us : List Int) :
    canAttemptMany cb (u :: us) =
      ((canAttemptMany (can_attempt cb u).1 us).1,
        (can_attempt cb u).2 :: (canAttemptMany (can_attempt cb u).1 us).2) := rfl

/-- C6: after five consecutive `record_failure` calls on a default breaker the
state is Open with the last failure time stamped; every `can_attempt` call
made while `now - last_failure_time ≤ 60` returns false and leaves the breaker
unchanged, no matter how many such calls are made; and the first call with
`now - last_failure_time > 60` flips the breaker to HalfOpen and returns
true. -/
theorem claim_C6 (t1 t2 t3 t4 t5 : Int) (cb : CircuitBreaker)
    (hcb : cb = record_failure (record_failure (record_failure (record_failure
      (record_failure CircuitBreaker.init t1) t2) t3) t4) t5) :
    cb.state = CircuitState.Open ∧
    cb.last_failure_time = some t5 ∧
    (∀ us, (∀ u ∈ us, u - t5 ≤ 60) →
      canAttemptMany cb us = (cb, us.map fun _ => false)) ∧
    (∀ u, 0 < t5 → 60 < u - t5 →
      can_attempt cb u = ({ cb with state := CircuitState.HalfOpen }, true)) := by
  have hcb' : cb = ⟨5, 60, 2, 5, 0, some t5, CircuitState.Open⟩ := by
    rw [hcb]; rfl
  subst hcb'
  refine ⟨rfl, rfl, ?_, ?_⟩
  · intro us hus
    induction us with
    | nil => rfl
    | cons u us ih =>
        have hp : can_attempt (⟨5, 60, 2, 5, 0, some t5, CircuitState.Open⟩ : CircuitBreaker) u
            = (⟨5, 60, 2, 5, 0, some t5, CircuitState.Open⟩, false) := by
          show (if t5 ≠ 0 ∧ u - t5 > 60 then _ else _) = _
          rw [if_neg]
          rintro ⟨-, hgt⟩
          have := hus u (List.mem_cons_self u us)
          omega
        rw [canAttemptMany_cons, hp]
        have hrest := ih (fun w hw => hus w (List.mem_cons_of_mem u hw))
        rw [hrest]
        rfl
  · intro u ht hu
    show (if t5 ≠ 0 ∧ u - t5 > 60 then _ else _) = _
    rw [if_pos ⟨by omega, hu⟩]

/-- The default breaker after five consecutive failures at times 1..5. -/
def witnessBreaker : CircuitBreaker :=
  record_failure (record_failure (record_failure (record_failure
    (record_failure CircuitBreaker.init 1) 2) 3) 4) 5

/-- C6 witness: after failures at 1..5 s, probes at 6, 30 and 65 s are all
refused (65 - 5 = 60 has not yet exceeded the timeout) leaving the breaker
unchanged, and a probe at 70 s flips it to HalfOpen and is allowed. -/
theorem claim_C6_witness :
    witnessBreaker.state = CircuitState.Open ∧
    canAttemptMany witnessBreaker [6, 30, 65]
      = (witnessBreaker, [false, false, false]) ∧
    can_attempt witnessBreaker 70
      = ({ witnessBreaker with state := CircuitState.HalfOpen }, true) := by
  obtain ⟨h1, -, h3, h4⟩ := claim_C6 1 2 3 4 5 witnessBreaker rfl
  exact ⟨h1, h3 [6, 30, 65] (by decide), h4 70 (by decide) (by decide)⟩

/-- Evicting expired timestamps never lengthens the window. -/
theorem evictOld_length_le (w now : Int) (ts : List Int) :
    (evictOld w now ts).length ≤ ts.length := by
  induction ts with
  | nil => simp [evictOld]
  | cons t ts ih =>
      rw [evictOld]
      split
      · exact le_trans ih (Nat.le_succ _)
      · exact le_refl _

/-- C7: for a limiter with capacity at least 1 holding at most `capacity`
recorded timestamps, an `acquire` call keeps the recorded window within
`capacity`; a call arriving at capacity is not recorded and instead receives
the wait time `oldest + windowSeconds - now`, and a caller that sleeps exactly
that long and calls `acquire` again is admitted; in particular with
`capacity = 2, windowSeconds = 60` and calls at 0 s, 0 s and 1 s, the third
call receives a 59 s wait and succeeds when retried after honoring it. -/
theorem claim_C7 (rl : RateLimiter) (now : Int) (hcap : 1 ≤ rl.max_calls)
    (hlen : rl.calls.length ≤ rl.max_calls) :
    ((acquire rl now).1.calls.length ≤ rl.max_calls) ∧
    (∀ w, (acquire rl now).2 = .wait w →
      ∃ t0 rest, evictOld rl.time_window now rl.calls = t0 :: rest ∧
        w = t0 + rl.time_window - now ∧
        (acquire rl now).1.calls = t0 :: rest ∧
        (acquire ((acquire rl now).1) (now + w)).2 = .allowed) ∧
    ((acquire ⟨2, 60, []⟩ 0).2 = .allowed ∧
     (acquire (acquire ⟨2, 60, []⟩ 0).1 0).2 = .allowed ∧
     (acquire (acquire (acquire ⟨2, 60, []⟩ 0).1 0).1 1).2 = .wait 59 ∧
     (acquire (acquire (acquire (acquire ⟨2, 60, []⟩ 0).1 0).1 1).1 60).2 = .allowed) := by
  have hdlen : (evictOld rl.time_window now rl.calls).length ≤ rl.calls.length :=
    evictOld_length_le _ _ _
  by_cases hlt : (evictOld rl.time_window now rl.calls).length < rl.max_calls
  · have hacq : acquire rl now
        = ({ rl with calls := evictOld rl.time_window now rl.calls ++ [now] }, .allowed) := by
      simp only [acquire]
      rw [if_pos hlt]
    refine ⟨?_, ?_, by decide⟩
    · rw [hacq]
      simp only [List.length_append, List.length_cons, List.length_nil]
      omega
    · intro w hw
      rw [hacq] at hw
      exact absurd hw (by simp)
  · have hge : rl.max_calls ≤ (evictOld rl.time_window now rl.calls).length :=
      le_of_not_lt hlt
    obtain ⟨t0, rest, hd0⟩ :
        ∃ t0 rest, evictOld rl.time_window now rl.calls = t0 :: rest := by
      cases hvo : evictOld rl.time_window now rl.calls with
      | nil =>
          exfalso
          rw [hvo] at hge
          simp at hge
          omega
      | cons a l => exact ⟨a, l, rfl⟩
    have hacq : acquire rl now
        = ({ rl with calls := t0 :: rest }, .wait (t0 + rl.time_window - now)) := by
      simp only [acquire]
      rw [if_neg hlt, hd0]
    have hrestlen : rest.length + 1 ≤ rl.max_calls := by
      have h1 : (t0 :: rest).length ≤ rl.max_calls := by
        rw [← hd0]; omega
      simpa using h1
    refine ⟨?_, ?_, by decide⟩
    · rw [hacq]
      show (t0 :: rest).length ≤ rl.max_calls
      simp only [List.length_cons]
      omega
    · intro w hw
      rw [hacq] at hw
      have hw' : w = t0 + rl.time_window - now := by
        injection hw with h
        exact h.symm
      subst hw'
      refine ⟨t0, rest, hd0, rfl, by rw [hacq], ?_⟩
      rw [hacq]
      show (acquire ({ rl with calls := t0 :: rest } : RateLimiter)
        (now + (t0 + rl.time_window - now))).2 = .allowed
      have harg : now + (t0 + rl.time_window - now) = t0 + rl.time_window := by ring
      rw [harg]
      simp only [acquire]
      rw [show evictOld rl.time_window (t0 + rl.time_window) (t0 :: rest)
            = evictOld rl.time_window (t0 + rl.time_window) rest from by
        rw [evictOld]; rw [if_pos (by omega)]]
      rw [if_pos (by
        have := evictOld_length_le rl.time_window (t0 + rl.time_window) rest
        omega)]

/-- C7 witness: a full limiter (capacity 2, both slots taken at time 0) asked
again at time 1 stays within capacity, is told to wait 59 s, and a retry at
time 60 is admitted. -/
theorem claim_C7_witness :
    (acquire ⟨2, 60, [0, 0]⟩ 1).1.calls.length ≤ (⟨2, 60, [0, 0]⟩ : RateLimiter).max_calls ∧
    ∃ t0 rest, evictOld (60 : Int) 1 [0, 0] = t0 :: rest ∧
      (59 : Int) = t0 + 60 - 1 ∧
      (acquire ⟨2, 60, [0, 0]⟩ 1).1.calls = t0 :: rest ∧
      (acquire ((acquire ⟨2, 60, [0, 0]⟩ 1).1) (1 + 59)).2 = .allowed :=
  ⟨(claim_C7 ⟨2, 60, [0, 0]⟩ 1 (by decide) (by decide)).1,
   (claim_C7 ⟨2, 60, [0, 0]⟩ 1 (by decide) (by decide)).2.1 59 rfl⟩

theorem pairwise_of_all {α : Type} {R : α → α → Prop} :
    ∀ l : List α, (∀ a ∈ l, ∀ b ∈ l, R a b) → l.Pairwise R := by
  intro l
  induction l with
  | nil => intro _; exact List.Pairwise.nil
  | cons x xs ih =>
      intro h
      refine List.Pairwise.cons ?_ (ih ?_)
      · exact fun b hb =>
          h x (List.mem_cons_self x xs) b (List.mem_cons_of_mem x hb)
      · exact fun a ha b hb =>
          h a (List.mem_cons_of_mem x ha) b (List.mem_cons_of_mem x hb)

theorem sendgridFirstKeyStanford_eq_zero (n : String) :
    sendgridFirstKeyStanford n = 0 ↔ n = "sendgrid" := by
  unfold sendgridFirstKeyStanford
  split_ifs with h1 h2 <;> simp [h1]

theorem sendgridFirstKeyExternal_eq_zero (n : String) :
    sendgridFirstKeyExternal n = 0 ↔ n = "sendgrid" := by
  unfold sendgridFirstKeyExternal
  split_ifs with h1 h2 <;> simp [h1]

/-- In either bucket ordering whose zero bucket is exactly the `sendgrid`
providers, every `sendgrid` entry precedes every non-`sendgrid` entry. -/
theorem sortSpecs_sendgrid_first (key : String → Nat)
    (hkey : ∀ n, key n = 0 ↔ n = "sendgrid") (ps : List ProviderSpec) :
    (sortSpecsByKey key ps).Pairwise
      (fun a b => b.name = "sendgrid" → a.name = "sendgrid") := by
  have h0 : ∀ a ∈ ps.filter (fun p => key p.name == 0), a.name = "sendgrid" := by
    intro a ha
    have h := (List.mem_filter.1 ha).2
    exact (hkey a.name).1 (by simpa using h)
  have h1 : ∀ b ∈ ps.filter (fun p => key p.name == 1), ¬ b.name = "sendgrid" := by
    intro b hb hbn
    have h := (List.mem_filter.1 hb).2
    have hb1 : key b.name = 1 := by simpa using h
    have hb0 : key b.name = 0 := (hkey b.name).2 hbn
    omega
  have h2 : ∀ b ∈ ps.filter (fun p => key p.name == 2), ¬ b.name = "sendgrid" := by
    intro b hb hbn
    have h := (List.mem_filter.1 hb).2
    have hb2 : key b.name = 2 := by simpa using h
    have hb0 : key b.name = 0 := (hkey b.name).2 hbn
    omega
  rw [sortSpecsByKey]
  refine List.pairwise_append.2 ⟨List.pairwise_append.2 ⟨?_, ?_, ?_⟩, ?_, ?_⟩
  · exact pairwise_of_all _ (fun a ha b hb => fun _ => h0 a ha)
  · exact pairwise_of_all _ (fun a ha b hb => fun hbn => absurd hbn (h1 b hb))
  · exact fun a ha b hb => fun _ => h0 a ha
  · exact pairwise_of_all _ (fun a ha b hb => fun hbn => absurd hbn (h2 b hb))
  · intro a ha b hb hbn
    exact absurd hbn (h2 b hb)

/-- A provider result stub for the ordering counterexample. -/
def neutralResult : SendResult := ⟨true, none, false, none⟩

def sendgridSpec : ProviderSpec := ⟨"sendgrid", true, fun _ => neutralResult⟩

def stanfordSmtpSpec : ProviderSpec := ⟨"stanford_smtp", true, fun _ => neutralResult⟩

/-- C8 counterexample: `alice@gmail.com` is out-of-domain, yet the dispatcher
orders the primary API channel (SendGrid) before the relay channel — not the
reverse, as the claim states for out-of-domain recipients. -/
theorem claim_C8_counterexample :
    is_stanford_recipient "alice@gmail.com" = false ∧
    (provider_order [sendgridSpec, stanfordSmtpSpec] "alice@gmail.com").map
      (fun p => p.name) = ["sendgrid", "stanford_smtp"] :=
  ⟨rfl, rfl⟩

/-- The Stanford-recipient key gives 1 exactly to the Stanford relay. -/
theorem sendgridFirstKeyStanford_eq_one (n : String) :
    sendgridFirstKeyStanford n = 1 ↔ n = "stanford_smtp" := by
  unfold sendgridFirstKeyStanford
  split_ifs with h1 h2
  · constructor
    · intro h
      exact absurd h (by decide)
    · intro h
      rw [h1] at h
      exact absurd h (by decide)
  · simp [h2]
  · constructor
    · intro h
      exact absurd h (by decide)
    · intro h
      exact absurd h h2

/-- The external-recipient key gives 2 exactly to the Stanford relay. -/
theorem sendgridFirstKeyExternal_eq_two (n : String) :
    sendgridFirstKeyExternal n = 2 ↔ n = "stanford_smtp" := by
  unfold sendgridFirstKeyExternal
  split_ifs with h1 h2
  · constructor
    · intro h
      exact absurd h (by decide)
    · intro h
      rw [h1] at h
      exact absurd h (by decide)
  · simp [h2]
  · constructor
    · intro h
      exact absurd h (by decide)
    · intro h
      exact absurd h h2

theorem sendgridFirstKeyStanford_total (n : String) :
    sendgridFirstKeyStanford n = 0 ∨ sendgridFirstKeyStanford n = 1
      ∨ sendgridFirstKeyStanford n = 2 := by
  unfold sendgridFirstKeyStanford
  split_ifs <;> simp

theorem sendgridFirstKeyExternal_total (n : String) :
    sendgridFirstKeyExternal n = 0 ∨ sendgridFirstKeyExternal n = 1
      ∨ sendgridFirstKeyExternal n = 2 := by
  unfold sendgridFirstKeyExternal
  split_ifs <;> simp

theorem key_of_mem_filter (key : String → Nat) (k : Nat) (ps : List ProviderSpec)
    (a : ProviderSpec) (ha : a ∈ ps.filter (fun p => key p.name == k)) :
    key a.name = k := by
  have h := (List.mem_filter.1 ha).2
  simpa using h

/-- Sorting by a total three-valued key permutes the provider list: no
provider is dropped or duplicated. -/
theorem sortSpecsByKey_perm (key : String → Nat)
    (htot : ∀ n, key n = 0 ∨ key n = 1 ∨ key n = 2) (ps : List ProviderSpec) :
    List.Perm (sortSpecsByKey key ps) ps := by
  have e1 : (ps.filter (fun p => !(key p.name == 0))).filter (fun p => key p.name == 1)
      = ps.filter (fun p => key p.name == 1) := by
    rw [List.filter_filter (fun p => !(key p.name == 0)) ps]
    refine List.filter_congr ?_
    intro x _
    rw [Bool.eq_iff_iff]
    simp only [Bool.and_eq_true, beq_iff_eq, Bool.not_eq_true', beq_eq_false_iff_ne, ne_eq]
    omega
  have e2 : (ps.filter (fun p => !(key p.name == 0))).filter (fun p => !(key p.name == 1))
      = ps.filter (fun p => key p.name == 2) := by
    rw [List.filter_filter (fun p => !(key p.name == 0)) ps]
    refine List.filter_congr ?_
    intro x _
    have hx := htot x.name
    rw [Bool.eq_iff_iff]
    simp only [Bool.and_eq_true, beq_iff_eq, Bool.not_eq_true', beq_eq_false_iff_ne, ne_eq]
    omega
  have h1 := List.filter_append_perm (fun p => key p.name == 1)
    (ps.filter (fun p => !(key p.name == 0)))
  rw [e1, e2] at h1
  have h0 := List.filter_append_perm (fun p => key p.name == 0) ps
  rw [sortSpecsByKey, List.append_assoc]
  exact (List.Perm.append_left _ h1).trans h0

/-- Either ordering starts with the recipient-independent SendGrid bucket,
followed only by non-SendGrid providers. -/
theorem sortSpecs_prefix (key : String → Nat)
    (hkey : ∀ n, key n = 0 ↔ n = "sendgrid") (ps : List ProviderSpec) :
    ∃ rel, sortSpecsByKey key ps = ps.filter (fun p => p.name == "sendgrid") ++ rel ∧
      ∀ p ∈ rel, ¬ p.name = "sendgrid" := by
  refine ⟨ps.filter (fun p => key p.name == 1) ++ ps.filter (fun p => key p.name == 2),
    ?_, ?_⟩
  · rw [sortSpecsByKey, List.append_assoc]
    have h : ps.filter (fun p => key p.name == 0)
        = ps.filter (fun p => p.name == "sendgrid") := by
      refine List.filter_congr ?_
      intro x _
      rw [Bool.eq_iff_iff]
      simp only [beq_iff_eq]
      exact hkey x.name
    rw [h]
  · intro p hp hpn
    have h0 : key p.name = 0 := (hkey p.name).2 hpn
    rcases List.mem_append.1 hp with h | h
    · have := key_of_mem_filter key 1 ps p h
      omega
    · have := key_of_mem_filter key 2 ps p h
      omega

/-- In-domain relay order: every provider placed before a Stanford SMTP entry
is SendGrid or Stanford SMTP, so Stanford SMTP precedes the other relays. -/
theorem sortSpecs_relay_stanford (ps : List ProviderSpec) :
    (sortSpecsByKey sendgridFirstKeyStanford ps).Pairwise
      (fun a b => b.name = "stanford_smtp" →
        a.name = "sendgrid" ∨ a.name = "stanford_smtp") := by
  have h0 : ∀ a ∈ ps.filter (fun p => sendgridFirstKeyStanford p.name == 0),
      a.name = "sendgrid" := fun a ha =>
    (sendgridFirstKeyStanford_eq_zero a.name).1 (key_of_mem_filter _ 0 ps a ha)
  have h1 : ∀ a ∈ ps.filter (fun p => sendgridFirstKeyStanford p.name == 1),
      a.name = "stanford_smtp" := fun a ha =>
    (sendgridFirstKeyStanford_eq_one a.name).1 (key_of_mem_filter _ 1 ps a ha)
  have h2 : ∀ b ∈ ps.filter (fun p => sendgridFirstKeyStanford p.name == 2),
      ¬ b.name = "stanford_smtp" := by
    intro b hb hbn
    have hk := key_of_mem_filter _ 2 ps b hb
    have hk1 : sendgridFirstKeyStanford b.name = 1 :=
      (sendgridFirstKeyStanford_eq_one b.name).2 hbn
    omega
  rw [sortSpecsByKey]
  refine List.pairwise_append.2 ⟨List.pairwise_append.2 ⟨?_, ?_, ?_⟩, ?_, ?_⟩
  · exact pairwise_of_all _ (fun a ha b hb => fun _ => Or.inl (h0 a ha))
  · exact pairwise_of_all _ (fun a ha b hb => fun _ => Or.inr (h1 a ha))
  · exact fun a ha b hb => fun _ => Or.inl (h0 a ha)
  · exact pairwise_of_all _ (fun a ha b hb => fun hbn => absurd hbn (h2 b hb))
  · intro a ha b hb hbn
    exact absurd hbn (h2 b hb)

/-- Out-of-domain relay order: nothing but Stanford SMTP entries follow a
Stanford SMTP entry, so the other relays precede Stanford SMTP. -/
theorem sortSpecs_relay_external (ps : List ProviderSpec) :
    (sortSpecsByKey sendgridFirstKeyExternal ps).Pairwise
      (fun a b => a.name = "stanford_smtp" → b.name = "stanford_smtp") := by
  have h0 : ∀ a ∈ ps.filter (fun p => sendgridFirstKeyExternal p.name == 0),
      ¬ a.name = "stanford_smtp" := by
    intro a ha han
    have hs := (sendgridFirstKeyExternal_eq_zero a.name).1 (key_of_mem_filter _ 0 ps a ha)
    rw [hs] at han
    exact absurd han (by decide)
  have h1 : ∀ a ∈ ps.filter (fun p => sendgridFirstKeyExternal p.name == 1),
      ¬ a.name = "stanford_smtp" := by
    intro a ha han
    have hk := key_of_mem_filter _ 1 ps a ha
    have hk2 : sendgridFirstKeyExternal a.name = 2 :=
      (sendgridFirstKeyExternal_eq_two a.name).2 han
    omega
  have h2 : ∀ b ∈ ps.filter (fun p => sendgridFirstKeyExternal p.name == 2),
      b.name = "stanford_smtp" := fun b hb =>
    (sendgridFirstKeyExternal_eq_two b.name).1 (key_of_mem_filter _ 2 ps b hb)
  rw [sortSpecsByKey]
  refine List.pairwise_append.2 ⟨List.pairwise_append.2 ⟨?_, ?_, ?_⟩, ?_, ?_⟩
  · exact pairwise_of_all _ (fun a ha b hb => fun han => absurd han (h0 a ha))
  · exact pairwise_of_all _ (fun a ha b hb => fun han => absurd han (h1 a ha))
  · exact fun a ha b hb => fun han => absurd han (h0 a ha)
  · exact pairwise_of_all _ (fun a ha b hb => fun _ => h2 b hb)
  · intro a ha b hb _
    exact h2 b hb

/-- C8 (amended): for every recipient — in-domain or out-of-domain — the
provider ordering places the primary API channel (SendGrid) before the relay
(SMTP) channels; the ordering is a permutation of the configured providers
that begins with the same recipient-independent SendGrid prefix, so the
in-domain and out-of-domain orderings can differ only among the relays; and
among the relays, an in-domain recipient has Stanford SMTP before the other
relays while an out-of-domain recipient has the reverse. -/
theorem claim_C8_amended (ps : List ProviderSpec) (to_email : String) :
    (provider_order ps to_email).Pairwise
      (fun a b => b.name = "sendgrid" → a.name = "sendgrid") ∧
    List.Perm (provider_order ps to_email) ps ∧
    (∃ rel, provider_order ps to_email
        = ps.filter (fun p => p.name == "sendgrid") ++ rel ∧
      ∀ p ∈ rel, ¬ p.name = "sendgrid") ∧
    (is_stanford_recipient to_email = true →
      (provider_order ps to_email).Pairwise
        (fun a b => b.name = "stanford_smtp" →
          a.name = "sendgrid" ∨ a.name = "stanford_smtp")) ∧
    (is_stanford_recipient to_email = false →
      (provider_order ps to_email).Pairwise
        (fun a b => a.name = "stanford_smtp" → b.name = "stanford_smtp")) := by
  by_cases hrc : is_stanford_recipient to_email = true
  · have hpo : provider_order ps to_email = sortSpecsByKey sendgridFirstKeyStanford ps := by
      rw [provider_order, if_pos hrc]
    rw [hpo]
    refine ⟨sortSpecs_sendgrid_first _ sendgridFirstKeyStanford_eq_zero ps,
      sortSpecsByKey_perm _ sendgridFirstKeyStanford_total ps,
      sortSpecs_prefix _ sendgridFirstKeyStanford_eq_zero ps,
      fun _ => sortSpecs_relay_stanford ps,
      fun hfeq => ?_⟩
    rw [hfeq] at hrc
    exact Bool.noConfusion hrc
  · have hpo : provider_order ps to_email = sortSpecsByKey sendgridFirstKeyExternal ps := by
      rw [provider_order, if_neg hrc]
    rw [hpo]
    exact ⟨sortSpecs_sendgrid_first _ sendgridFirstKeyExternal_eq_zero ps,
      sortSpecsByKey_perm _ sendgridFirstKeyExternal_total ps,
      sortSpecs_prefix _ sendgridFirstKeyExternal_eq_zero ps,
      fun ht => absurd ht hrc,
      fun _ => sortSpecs_relay_external ps⟩
/-- A generic external relay, named as `GenericSMTPHandler.get_provider_name`
names it. -/
def otherSmtpSpec : ProviderSpec := ⟨"smtp_mail.example.com", true, fun _ => neutralResult⟩

/-- C8 witness: the amended theorem applied to a concrete provider set for one
in-domain and one out-of-domain recipient. -/
theorem claim_C8_witness :
    (provider_order [sendgridSpec, stanfordSmtpSpec, otherSmtpSpec]
        "researcher@stanford.edu").Pairwise
      (fun a b => b.name = "stanford_smtp" →
        a.name = "sendgrid" ∨ a.name = "stanford_smtp") ∧
    (provider_order [sendgridSpec, stanfordSmtpSpec, otherSmtpSpec]
        "alice@gmail.com").Pairwise
      (fun a b => a.name = "stanford_smtp" → b.name = "stanford_smtp") :=
  ⟨(claim_C8_amended [sendgridSpec, stanfordSmtpSpec, otherSmtpSpec]
      "researcher@stanford.edu").2.2.2.1 rfl,
   (claim_C8_amended [sendgridSpec, stanfordSmtpSpec, otherSmtpSpec]
      "alice@gmail.com").2.2.2.2 rfl⟩

/-- The error detail the loop's threaded `last_error` holds: the last audit
entry's `result.get('error', 'Unknown error')`, or nothing when no attempt has
been made. -/
def errOf (attempts : List DeliveryAttempt) : Option String :=
  attempts.getLast?.map (fun a => a.result.error.getD "Unknown error")

/-- Appending an attempt makes it the carrier of the last error detail. -/
theorem errOf_append_single (acc : List DeliveryAttempt) (a : DeliveryAttempt) :
    errOf (acc ++ [a]) = some (a.result.error.getD "Unknown error") := by
  simp [errOf]

/-- One unfolding step of the per-provider retry loop. -/
theorem attemptLoop_succ (p : ProviderSpec) (i fuel : Nat)
    (attempts : List DeliveryAttempt) (lastErr : Option String) :
    attemptLoop p i (fuel + 1) attempts lastErr =
      if (p.sendResults i).success then
        (true, attempts ++ [⟨p.name, i + 1, p.sendResults i⟩], lastErr)
      else if (p.sendResults i).retry || isTransientStatus (p.sendResults i).status_code then
        attemptLoop p (i + 1) fuel (attempts ++ [⟨p.name, i + 1, p.sendResults i⟩])
          (some ((p.sendResults i).error.getD "Unknown error"))
      else (false, attempts ++ [⟨p.name, i + 1, p.sendResults i⟩],
            some ((p.sendResults i).error.getD "Unknown error")) := rfl

/-- Shape of one provider's retry loop: it extends the audit trail with its
own attempts only; on success the appended attempts end with the single
successful one, all earlier ones failures; on failure every appended attempt
failed and the threaded error detail is the last appended attempt's. -/
theorem attemptLoop_spec (p : ProviderSpec) :
    ∀ fuel i acc le, le = errOf acc →
      ∃ new, (attemptLoop p i fuel acc le).2.1 = acc ++ new ∧
        (∀ a ∈ new, a.provider = p.name) ∧
        (((attemptLoop p i fuel acc le).1 = true ∧
            ∃ pre la, new = pre ++ [la] ∧ la.result.success = true ∧
              ∀ a ∈ pre, a.result.success = false) ∨
         ((attemptLoop p i fuel acc le).1 = false ∧
            (∀ a ∈ new, a.result.success = false) ∧
            (attemptLoop p i fuel acc le).2.2 = errOf (acc ++ new))) := by
  intro fuel
  induction fuel with
  | zero =>
      intro i acc le hle
      refine ⟨[], by simp [attemptLoop], by simp, Or.inr ⟨rfl, by simp, ?_⟩⟩
      show le = errOf (acc ++ [])
      rw [List.append_nil]
      exact hle
  | succ fuel ih =>
      intro i acc le hle
      by_cases hs : (p.sendResults i).success = true
      · have heq : attemptLoop p i (fuel + 1) acc le
            = (true, acc ++ [⟨p.name, i + 1, p.sendResults i⟩], le) := by
          rw [attemptLoop_succ, if_pos hs]
        refine ⟨[⟨p.name, i + 1, p.sendResults i⟩], by rw [heq], ?_, Or.inl ?_⟩
        · intro a ha
          rw [List.mem_singleton] at ha
          subst ha
          rfl
        · refine ⟨by rw [heq], [], ⟨p.name, i + 1, p.sendResults i⟩, rfl, hs, by simp⟩
      · have hs' : (p.sendResults i).success = false := by
          revert hs
          cases (p.sendResults i).success <;> simp
        by_cases ht : ((p.sendResults i).retry || isTransientStatus (p.sendResults i).status_code) = true
        · have heq : attemptLoop p i (fuel + 1) acc le
              = attemptLoop p (i + 1) fuel (acc ++ [⟨p.name, i + 1, p.sendResults i⟩])
                  (some ((p.sendResults i).error.getD "Unknown error")) := by
            rw [attemptLoop_succ, if_neg (by simp [hs']), if_pos ht]
          have hle' : (some ((p.sendResults i).error.getD "Unknown error") : Option String)
              = errOf (acc ++ [⟨p.name, i + 1, p.sendResults i⟩]) := by
            rw [errOf_append_single]
          obtain ⟨new', hnew', hprov', hdisj'⟩ :=
            ih (i + 1) (acc ++ [⟨p.name, i + 1, p.sendResults i⟩]) _ hle'
          refine ⟨⟨p.name, i + 1, p.sendResults i⟩ :: new', ?_, ?_, ?_⟩
          · rw [heq, hnew', List.append_assoc]
            rfl
          · intro a ha
            rcases List.mem_cons.1 ha with rfl | ha'
            · rfl
            · exact hprov' a ha'
          · rcases hdisj' with ⟨h1, pre', la, hdec, hlas, hpre⟩ | ⟨h1, hfail, herr⟩
            · refine Or.inl ⟨by rw [heq]; exact h1,
                ⟨p.name, i + 1, p.sendResults i⟩ :: pre', la, by rw [hdec]; rfl, hlas, ?_⟩
              intro a ha
              rcases List.mem_cons.1 ha with rfl | ha'
              · exact hs'
              · exact hpre a ha'
            · refine Or.inr ⟨by rw [heq]; exact h1, ?_, ?_⟩
              · intro a ha
                rcases List.mem_cons.1 ha with rfl | ha'
                · exact hs'
                · exact hfail a ha'
              · rw [heq, herr, List.append_assoc]
                rfl
        · have heq : attemptLoop p i (fuel + 1) acc le
              = (false, acc ++ [⟨p.name, i + 1, p.sendResults i⟩],
                  some ((p.sendResults i).error.getD "Unknown error")) := by
            rw [attemptLoop_succ, if_neg (by simp [hs']), if_neg (by simp [ht])]
          refine ⟨[⟨p.name, i + 1, p.sendResults i⟩], by rw [heq], ?_, Or.inr ?_⟩
          · intro a ha
            rw [List.mem_singleton] at ha
            subst ha
            rfl
          · refine ⟨by rw [heq], ?_, ?_⟩
            · intro a ha
              rw [List.mem_singleton] at ha
              subst ha
              exact hs'
            · rw [heq, errOf_append_single]

/-- One unfolding step of the provider loop. -/
theorem sendWithProviders_cons (now : Int) (maxR : Nat) (p : ProviderSpec)
    (rest : List ProviderSpec) (bk : String → CircuitBreaker)
    (acc : List DeliveryAttempt) (le : Option String) :
    sendWithProviders now maxR (p :: rest) bk acc le =
      if (can_attempt (bk p.name) now).2 = false then
        sendWithProviders now maxR rest
          (updateBreaker bk p.name (can_attempt (bk p.name) now).1) acc le
      else if p.healthy = false then
        sendWithProviders now maxR rest
          (updateBreaker bk p.name (can_attempt (bk p.name) now).1) acc le
      else
        match attemptLoop p 0 maxR acc le with
        | (true, attempts', _) =>
            ({ success := true
               provider := some p.name
               attempts := attempts'
               last_error := none },
             updateBreaker (updateBreaker bk p.name (can_attempt (bk p.name) now).1) p.name
               (record_success ((updateBreaker bk p.name (can_attempt (bk p.name) now).1) p.name)))
        | (false, attempts', lastErr') =>
            sendWithProviders now maxR rest
              (updateBreaker (updateBreaker bk p.name (can_attempt (bk p.name) now).1) p.name
                (record_failure ((updateBreaker bk p.name (can_attempt (bk p.name) now).1) p.name) now))
              attempts' lastErr' := rfl

/-- Invariant of the provider loop: starting from an all-failure audit trail
whose last error detail matches, the loop either returns success whose trail
ends with the one successful attempt (all earlier attempts failures, the
winning provider's breaker freshly credited with `record_success`), or
returns failure carrying the whole accumulated trail and the last error
detail. -/
theorem sendWith_spec (now : Int) (maxR : Nat) :
    ∀ ps bk acc le, le = errOf acc → (∀ a ∈ acc, a.result.success = false) →
      (((sendWithProviders now maxR ps bk acc le).1.success = true ∧
          ∃ nm pre la,
            (sendWithProviders now maxR ps bk acc le).1.provider = some nm ∧
            (sendWithProviders now maxR ps bk acc le).1.attempts = pre ++ [la] ∧
            la.provider = nm ∧ la.result.success = true ∧
            (∀ a ∈ pre, a.result.success = false) ∧
            ∃ cb, (sendWithProviders now maxR ps bk acc le).2 nm = record_success cb) ∨
       ((sendWithProviders now maxR ps bk acc le).1.success = false ∧
          (sendWithProviders now maxR ps bk acc le).1.provider = none ∧
          (∀ a ∈ (sendWithProviders now maxR ps bk acc le).1.attempts,
            a.result.success = false) ∧
          (∃ ext, (sendWithProviders now maxR ps bk acc le).1.attempts = acc ++ ext) ∧
          (sendWithProviders now maxR ps bk acc le).1.last_error
            = some ("All providers failed. Last error: "
                ++ (errOf (sendWithProviders now maxR ps bk acc le).1.attempts).getD "None"))) := by
  intro ps
  induction ps with
  | nil =>
      intro bk acc le hle hacc
      refine Or.inr ⟨rfl, rfl, hacc, ⟨[], by simp [sendWithProviders]⟩, ?_⟩
      show some ("All providers failed. Last error: " ++ le.getD "None") = _
      rw [hle]
      rfl
  | cons p rest ih =>
      intro bk acc le hle hacc
      rw [sendWithProviders_cons]
      by_cases hca : (can_attempt (bk p.name) now).2 = false
      · rw [if_pos hca]
        exact ih _ acc le hle hacc
      · rw [if_neg hca]
        by_cases hh : p.healthy = false
        · rw [if_pos hh]
          exact ih _ acc le hle hacc
        · rw [if_neg hh]
          obtain ⟨new, hnew, hprov, hdisj⟩ := attemptLoop_spec p maxR 0 acc le hle
          rcases hal : attemptLoop p 0 maxR acc le with ⟨s, attempts', le2⟩
          rw [hal] at hnew hdisj
          dsimp only at hnew hdisj
          cases s with
          | true =>
              dsimp only
              rcases hdisj with ⟨-, pre2, la, hdec, hlas, hpre⟩ | ⟨hfalse, -, -⟩
              · refine Or.inl ⟨rfl, p.name, acc ++ pre2, la, rfl, ?_, ?_, hlas, ?_, ?_⟩
                · show attempts' = acc ++ pre2 ++ [la]
                  rw [hnew, hdec, List.append_assoc]
                · exact hprov la (by rw [hdec]; exact List.mem_append_right _ (List.mem_singleton.2 rfl))
                · intro a ha
                  rcases List.mem_append.1 ha with ha' | ha'
                  · exact hacc a ha'
                  · exact hpre a ha'
                · exact ⟨(updateBreaker bk p.name (can_attempt (bk p.name) now).1) p.name,
                    by simp [updateBreaker]⟩
              · exact absurd hfalse (by simp)
          | false =>
              dsimp only
              rcases hdisj with ⟨htrue, -⟩ | ⟨-, hfail, herr⟩
              · exact absurd htrue (by simp)
              · have hle2 : le2 = errOf attempts' := by
                  rw [herr, ← hnew]
                have hallfail : ∀ a ∈ attempts', a.result.success = false := by
                  intro a ha
                  rw [hnew] at ha
                  rcases List.mem_append.1 ha with ha' | ha'
                  · exact hacc a ha'
                  · exact hfail a ha'
                rcases ih _ attempts' le2 hle2 hallfail with hl | ⟨h1, h2, h3, ⟨ext2, hext2⟩, h5⟩
                · exact Or.inl hl
                · refine Or.inr ⟨h1, h2, h3, ⟨new ++ ext2, ?_⟩, h5⟩
                  rw [hext2, hnew, List.append_assoc]

/-- C9: when a provider reports success the dispatcher records the success on
that provider's breaker, the successful attempt is the last entry of the
returned audit trail (so no provider or attempt follows it and exactly one
attempt succeeded), and the outcome names that provider; when every provider
is exhausted the outcome has `success = false` and carries the accumulated
attempt trail and the last error detail. -/
theorem claim_C9 (now : Int) (max_retries : Nat) (providers : List ProviderSpec)
    (to_email : String) (bk : String → CircuitBreaker) :
    ((send_with_providers now max_retries providers to_email bk).1.success = true →
      ∃ nm pre la,
        (send_with_providers now max_retries providers to_email bk).1.provider = some nm ∧
        (send_with_providers now max_retries providers to_email bk).1.attempts = pre ++ [la] ∧
        la.provider = nm ∧ la.result.success = true ∧
        (∀ a ∈ pre, a.result.success = false) ∧
        ∃ cb, (send_with_providers now max_retries providers to_email bk).2 nm
          = record_success cb) ∧
    ((send_with_providers now max_retries providers to_email bk).1.success = false →
      (send_with_providers now max_retries providers to_email bk).1.provider = none ∧
      (∀ a ∈ (send_with_providers now max_retries providers to_email bk).1.attempts,
        a.result.success = false) ∧
      (send_with_providers now max_retries providers to_email bk).1.last_error
        = some ("All providers failed. Last error: "
            ++ (errOf (send_with_providers now max_retries providers to_email bk).1.attempts).getD
              "None")) := by
  have hspec := sendWith_spec now max_retries (provider_order providers to_email) bk [] none
    rfl (by simp)
  simp only [send_with_providers]
  constructor
  · intro hs
    rcases hspec with ⟨-, hex⟩ | ⟨hfalse, -⟩
    · exact hex
    · rw [hs] at hfalse
      simp at hfalse
  · intro hs
    rcases hspec with ⟨htrue, -⟩ | ⟨-, h2, h3, -, h5⟩
    · rw [hs] at htrue
      simp at htrue
    · exact ⟨h2, h3, h5⟩

/-- A permanently failing provider result. -/
def failResult : SendResult := ⟨false, some "boom", false, none⟩

def failingSpec : ProviderSpec := ⟨"sendgrid", true, fun _ => failResult⟩

/-- Fresh breakers for every provider name. -/
def initBreakers : String → CircuitBreaker := fun _ => CircuitBreaker.init

/-- C9 witness: a dispatch through one healthy succeeding provider returns
success with the success attempt last; a dispatch through one permanently
failing provider returns failure with the trail and last error. -/
theorem claim_C9_witness :
    ((send_with_providers 0 3 [sendgridSpec] "participant@example.com" initBreakers).1.success
        = true ∧
      ∃ nm pre la,
        (send_with_providers 0 3 [sendgridSpec] "participant@example.com" initBreakers).1.provider
          = some nm ∧
        (send_with_providers 0 3 [sendgridSpec] "participant@example.com" initBreakers).1.attempts
          = pre ++ [la] ∧
        la.provider = nm ∧ la.result.success = true ∧
        (∀ a ∈ pre, a.result.success = false) ∧
        ∃ cb, (send_with_providers 0 3 [sendgridSpec] "participant@example.com" initBreakers).2 nm
          = record_success cb) ∧
    ((send_with_providers 0 3 [failingSpec] "participant@example.com" initBreakers).1.success
        = false ∧
      ((send_with_providers 0 3 [failingSpec] "participant@example.com" initBreakers).1.provider
          = none ∧
       (∀ a ∈ (send_with_providers 0 3 [failingSpec] "participant@example.com"
          initBreakers).1.attempts, a.result.success = false) ∧
       (send_with_providers 0 3 [failingSpec] "participant@example.com" initBreakers).1.last_error
         = some ("All providers failed. Last error: "
             ++ (errOf (send_with_providers 0 3 [failingSpec] "participant@example.com"
                  initBreakers).1.attempts).getD "None"))) :=
  ⟨⟨rfl, (claim_C9 0 3 [sendgridSpec] "participant@example.com" initBreakers).1 rfl⟩,
   ⟨rfl, (claim_C9 0 3 [failingSpec] "participant@example.com" initBreakers).2 rfl⟩⟩

/-- The error `_make_request` raises when the HTTP POST itself fails. -/
def networkFailure : RedcapApiError :=
  mkRedcapApiError "Network or Request Error: connection refused" none none none

/-- C10 counterexample: when the batch fetch fails with a repository
communication error, `process_records` returns 0 to its caller — a normal
return indistinguishable from an empty batch — instead of propagating the
error (the `except` clause at lines 135-137 logs it and returns 0). -/
theorem claim_C10_counterexample :
    process_records (.error networkFailure) (fun _ => 42) = .returned 0 ∧
    process_records (.error networkFailure) (fun _ => 42) ≠ .raised networkFailure := by
  refine ⟨rfl, ?_⟩
  intro h
  rw [show process_records (.error networkFailure) (fun _ => 42)
        = ProcReturn.returned 0 from rfl] at h
  exact ProcReturn.noConfusion h

/-- C10 (amended): a repository communication failure (network error or HTTP
status ≥ 400) is raised by the client, `_make_request`, to its caller as a
structured `RedcapApiError`; but `process_records` catches that error around
the batch fetch, logs it, and returns 0 to its own caller — the failure is
swallowed at the processing entry point, not propagated, independent of what
processing the batch would have received. -/
theorem claim_C10_amended :
    (∀ (detection : List String) (status : Nat) (body : String), 400 ≤ status →
      ∃ err, make_request detection (.response status body) = .error err ∧
        err.status_code = some ((status : Nat) : Int) ∧ err.response_body = some body ∧
        err.detection_strings = detection) ∧
    (∀ (detection : List String) (msg : String),
      ∃ err, make_request detection (.networkError msg) = .error err ∧
        err.status_code = none ∧ err.response_body = none) ∧
    (∀ (e : RedcapApiError) (processBody : List RcRecord → Nat),
      process_records (.error e) processBody = .returned 0) := by
  refine ⟨?_, ?_, ?_⟩
  · intro detection status body h
    refine ⟨⟨"REDCap API Error: HTTP " ++ toString status, some ((status : Nat) : Int),
      some body, detection⟩, ?_, rfl, rfl, rfl⟩
    simp only [make_request]
    rw [if_pos h]
  · intro detection msg
    exact ⟨mkRedcapApiError ("Network or Request Error: " ++ msg) none none none,
      rfl, rfl, rfl⟩
  · intro e processBody
    rfl

/-- C10 witness: a 500 response surfaces from the client as a structured
error, and `process_records` converts a propagated network failure into a
normal return of 0. -/
theorem claim_C10_witness :
    (∃ err, make_request defaultDetectionStrings (.response 500 "Internal Server Error")
        = .error err ∧ err.status_code = some ((500 : Nat) : Int) ∧
        err.response_body = some "Internal Server Error" ∧
        err.detection_strings = defaultDetectionStrings) ∧
    process_records (.error networkFailure) (fun _ => 7) = .returned 0 :=
  ⟨claim_C10_amended.1 defaultDetectionStrings 500 "Internal Server Error" (by decide),
   claim_C10_amended.2.2 networkFailure (fun _ => 7)⟩
